import Mathlib

/-!
Verification of the content-automation pipeline's scheduling and
state-transition engine: a shallow embedding in Lean 4 of the Python
modules `twitch_handler.py`, `youtube_publisher.py`,
`scheduling_optimizer.py`, `game_metadata_handler.py`, `downloader.py`,
`youtube_handler.py` and `supabase_client.py`, together with theorems
settling the specification's claims about them.

Timestamps are modelled as minutes since an epoch (`Nat`); a calendar
date is the day index `t / 1440`, the local hour is `t % 1440 / 60`.
Database tables are modelled as Lean lists of records; external HTTP
services (Twitch, IGDB, RAWG, streamlink, DO Spaces) are oracles passed
in as function arguments.
-/

namespace ContentAutomation

/-! ### VOD discovery (`twitch_handler.process_new_vods`) -/

/-- A VOD as returned by `TwitchHandler.get_recent_vods`: the dictionary
built from the Helix `/videos` response (`twitch_vod_id`, `title`,
`created_at`, ...). `created_at` is in minutes since the epoch. -/
structure VOD where
  twitch_vod_id : String
  title : String
  created_at : Nat
  deriving Repr, DecidableEq

/-- A row of the `streams` table, restricted to the fields the discovery
scan reads and writes. -/
structure StreamRecord where
  twitch_stream_id : String
  twitch_vod_id : String
  title : String
  created_at : Nat
  deriving Repr, DecidableEq

/-- `SupabaseClient.get_stream_by_twitch_id`: selects from `streams`
filtering on the `twitch_stream_id` column and returns the first row,
if any. -/
def get_stream_by_twitch_id (streams : List StreamRecord) (twitch_stream_id : String) :
    Option StreamRecord :=
  streams.find? (fun s => s.twitch_stream_id == twitch_stream_id)

/-- The `stream_data` dictionary `process_new_vods` inserts for a
discovered VOD: note `twitch_stream_id` is set to `"vod_" ++ vod id`
while `twitch_vod_id` holds the raw id. -/
def mkStreamData (v : VOD) : StreamRecord :=
  { twitch_stream_id := "vod_" ++ v.twitch_vod_id
    twitch_vod_id := v.twitch_vod_id
    title := v.title
    created_at := v.created_at }

/-- The filter loop of `process_new_vods`: a VOD is unprocessed when
`get_stream_by_twitch_id(vod['twitch_vod_id'])` finds no row. -/
def unprocessedVods (streams : List StreamRecord) (vods : List VOD) : List VOD :=
  vods.filter (fun v => (get_stream_by_twitch_id streams v.twitch_vod_id).isNone)

/-- `unprocessed_vods.sort(key=lambda v: v['created_at'])`: the list the
processing loop of `process_new_vods` iterates over, sorted ascending
by creation timestamp (Python `list.sort` is a stable merge sort). -/
def processingOrder (streams : List StreamRecord) (vods : List VOD) : List VOD :=
  (unprocessedVods streams vods).mergeSort (fun a b => a.created_at ≤ b.created_at)

/-- `TwitchHandler.process_new_vods`, acting on the `streams` table:
filter out VODs believed processed, sort oldest first, then create a
stream record for each remaining VOD. Returns the table afterwards. -/
def process_new_vods (streams : List StreamRecord) (vods : List VOD) : List StreamRecord :=
  (processingOrder streams vods).foldl (fun db v => db ++ [mkStreamData v]) streams

/-- The external listing of the C1 failing input: a single VOD with
external id `123`. -/
def sampleVod : VOD := { twitch_vod_id := "123", title := "stream one", created_at := 100 }

end ContentAutomation

namespace ContentAutomation

/-- **C1.** Running the discovery scan twice over the same one-element
listing, starting from an empty `streams` table, leaves TWO stream
records carrying external VOD id `123`: the duplicate check looks up
`twitch_stream_id = "123"` but the first run stored
`twitch_stream_id = "vod_123"`, so the second run never sees the
existing record and inserts a duplicate. The scan is not idempotent. -/
theorem process_new_vods_not_idempotent :
    ((process_new_vods (process_new_vods [] [sampleVod]) [sampleVod]).filter
      (fun s => s.twitch_vod_id == "123")).length = 2 := by
  have h1 : processingOrder [] [sampleVod] = [sampleVod] := by
    rw [processingOrder]
    have hu : unprocessedVods [] [sampleVod] = [sampleVod] := by decide
    rw [hu, List.mergeSort_singleton]
  have h2 : process_new_vods [] [sampleVod] = [mkStreamData sampleVod] := by
    rw [process_new_vods, h1]; rfl
  have h3 : processingOrder [mkStreamData sampleVod] [sampleVod] = [sampleVod] := by
    rw [processingOrder]
    have hu : unprocessedVods [mkStreamData sampleVod] [sampleVod] = [sampleVod] := by decide
    rw [hu, List.mergeSort_singleton]
  rw [h2, process_new_vods, h3]
  decide

/-- **C8.** The list the processing loop of `process_new_vods` iterates
over is sorted ascending by `created_at` (oldest first) and is a
permutation of the unprocessed VODs: with creation timestamps
T1 < T2 < T3, the VOD at T1 is processed before T2, which is processed
before T3. -/
theorem process_new_vods_oldest_first (streams : List StreamRecord) (vods : List VOD) :
    (processingOrder streams vods).Pairwise (fun a b => a.created_at ≤ b.created_at) ∧
    (processingOrder streams vods).Perm (unprocessedVods streams vods) := by
  constructor
  · have h := @List.sorted_mergeSort VOD
      (fun a b => decide (a.created_at ≤ b.created_at))
      (fun a b c hab hbc => by
        simp only [decide_eq_true_eq] at *
        omega)
      (fun a b => by
        simp only [Bool.or_eq_true, decide_eq_true_eq]
        omega)
      (unprocessedVods streams vods)
    refine (List.pairwise_iff_get).2 (fun i j hij => ?_)
    have h2 := (List.pairwise_iff_get).1 h i j hij
    simpa using h2
  · exact List.mergeSort_perm _ _

/-! ### Scheduled publishing (`youtube_publisher.py`) -/

/-- A row of the `youtube_uploads` table, restricted to the fields the
publish scan reads and writes. `scheduled_publish_at` is in minutes
since the epoch, signed so the polling window can extend below zero. -/
structure UploadRecord where
  id : String
  youtube_video_id : Option String
  upload_status : String
  privacy_status : String
  metadata_status : String
  manual_review_required : Bool
  scheduled_publish_at : Int
  deriving Repr, DecidableEq

/-- `YouTubePublisher.get_videos_to_publish`: the Supabase query
selecting rows with `upload_status = completed`,
`privacy_status = private`, `metadata_status = ready` and
`scheduled_publish_at` within `[now - window, now + window]`
(`gte` / `lte`, a closed interval). -/
def get_videos_to_publish (db : List UploadRecord) (now publish_window_minutes : Int) :
    List UploadRecord :=
  db.filter (fun r =>
    r.upload_status == "completed" &&
    r.privacy_status == "private" &&
    r.metadata_status == "ready" &&
    decide (now - publish_window_minutes ≤ r.scheduled_publish_at) &&
    decide (r.scheduled_publish_at ≤ now + publish_window_minutes))

/-- The per-record guards of the loop in
`YouTubePublisher.process_scheduled_publishes`: skip when there is no
YouTube video id, skip when `manual_review_required`, then attempt the
API publish call (modelled by the oracle `publish_ok`). -/
def publishLoopAccepts (publish_ok : String → Bool) (r : UploadRecord) : Bool :=
  match r.youtube_video_id with
  | none => false
  | some video_id => !r.manual_review_required && publish_ok video_id

/-- The records whose privacy flip succeeds in one publish scan. -/
def publishedRecords (db : List UploadRecord) (now w : Int) (publish_ok : String → Bool) :
    List UploadRecord :=
  (get_videos_to_publish db now w).filter (publishLoopAccepts publish_ok)

/-- The effect of one publish scan on a single table row:
`update_youtube_upload(upload_id, privacy_status = public)` updates the
row whose id matches a successfully published record. -/
def publishStep (db : List UploadRecord) (now w : Int) (publish_ok : String → Bool)
    (r : UploadRecord) : UploadRecord :=
  if (publishedRecords db now w publish_ok).any (fun p => p.id == r.id) then
    { r with privacy_status := "public" }
  else r

/-- `YouTubePublisher.process_scheduled_publishes`, acting on the
`youtube_uploads` table: returns the table after one scan. -/
def process_scheduled_publishes (db : List UploadRecord) (now w : Int)
    (publish_ok : String → Bool) : List UploadRecord :=
  db.map (publishStep db now w publish_ok)

theorem publishedRecords_subset {db : List UploadRecord} {now w : Int}
    {publish_ok : String → Bool} {r : UploadRecord}
    (h : r ∈ publishedRecords db now w publish_ok) : r ∈ db :=
  List.mem_of_mem_filter (List.mem_of_mem_filter h)

theorem publishStep_of_not_published {db : List UploadRecord} {now w : Int}
    {publish_ok : String → Bool} {r : UploadRecord}
    (hids : (db.map (fun u => u.id)).Nodup) (hr : r ∈ db)
    (hnp : r ∉ publishedRecords db now w publish_ok) :
    publishStep db now w publish_ok r = r := by
  rw [publishStep, if_neg]
  intro hany
  rcases List.any_eq_true.1 hany with ⟨p, hp, hpid⟩
  have hpdb : p ∈ db := publishedRecords_subset hp
  have : p = r :=
    List.inj_on_of_nodup_map hids hpdb hr (by simpa using hpid)
  exact hnp (this ▸ hp)

end ContentAutomation

namespace ContentAutomation

/-- **C2.** A publish scan flips privacy private→public only for records
with `upload_status = completed`, `privacy_status = private`,
`metadata_status = ready` and `scheduled_publish_at` inside the polling
window; and a record with `manual_review_required = true` is never
auto-published — the scan leaves it unchanged even when its scheduled
time has passed. -/
theorem auto_publish_gating (db : List UploadRecord) (now w : Int)
    (publish_ok : String → Bool) (hids : (db.map (fun u => u.id)).Nodup) :
    (∀ r ∈ publishedRecords db now w publish_ok,
      r.upload_status = "completed" ∧ r.privacy_status = "private" ∧
      r.metadata_status = "ready" ∧
      now - w ≤ r.scheduled_publish_at ∧ r.scheduled_publish_at ≤ now + w ∧
      r.manual_review_required = false) ∧
    (∀ r ∈ db, r.manual_review_required = true →
      r ∉ publishedRecords db now w publish_ok ∧
      publishStep db now w publish_ok r = r) := by
  constructor
  · intro r hr
    rcases List.mem_filter.1 hr with ⟨hq, hloop⟩
    rcases List.mem_filter.1 hq with ⟨-, hcond⟩
    simp only [Bool.and_eq_true, beq_iff_eq, decide_eq_true_eq] at hcond
    refine ⟨hcond.1.1.1.1, hcond.1.1.1.2, hcond.1.1.2, hcond.1.2, hcond.2, ?_⟩
    rw [publishLoopAccepts] at hloop
    rcases hrv : r.youtube_video_id with _ | video_id
    · rw [hrv] at hloop; cases hloop
    · rw [hrv] at hloop
      simp only [Bool.and_eq_true, Bool.not_eq_true'] at hloop
      exact hloop.1
  · intro r hr hmr
    have hnp : r ∉ publishedRecords db now w publish_ok := by
      intro hp
      have hloop := (List.mem_filter.1 hp).2
      rw [publishLoopAccepts] at hloop
      rcases hrv : r.youtube_video_id with _ | video_id
      · rw [hrv] at hloop; cases hloop
      · rw [hrv] at hloop
        simp only [Bool.and_eq_true, Bool.not_eq_true'] at hloop
        rw [hloop.1] at hmr; cases hmr
    exact ⟨hnp, publishStep_of_not_published hids hr hnp⟩

/-- Concrete publish-scan input for the C2 witness: a fully overdue
upload that requires manual review. -/
def reviewUpload : UploadRecord :=
  { id := "u1", youtube_video_id := some "yt1", upload_status := "completed"
    privacy_status := "private", metadata_status := "ready"
    manual_review_required := true, scheduled_publish_at := 1000 }

theorem auto_publish_gating_witness :
    reviewUpload ∉ publishedRecords [reviewUpload] 1000 30 (fun _ => true) ∧
    publishStep [reviewUpload] 1000 30 (fun _ => true) reviewUpload = reviewUpload :=
  (auto_publish_gating [reviewUpload] 1000 30 (fun _ => true) (by decide)).2
    reviewUpload (by decide) (by decide)

/-- **C9.** A fully eligible upload whose scheduled publish time lies
more than `w` minutes in the past is excluded from the window query and
is never auto-published by the scan: the query keeps only records with
`scheduled_publish_at` in `[now - w, now + w]`, and the scan leaves all
other rows unchanged. -/
theorem overdue_upload_never_published (db : List UploadRecord) (now w : Int)
    (publish_ok : String → Bool) (hids : (db.map (fun u => u.id)).Nodup)
    (r : UploadRecord) (hr : r ∈ db)
    (hlate : r.scheduled_publish_at < now - w) :
    (∀ q ∈ get_videos_to_publish db now w,
      now - w ≤ q.scheduled_publish_at ∧ q.scheduled_publish_at ≤ now + w) ∧
    r ∉ get_videos_to_publish db now w ∧
    r ∉ publishedRecords db now w publish_ok ∧
    publishStep db now w publish_ok r = r := by
  have hwindow : ∀ q ∈ get_videos_to_publish db now w,
      now - w ≤ q.scheduled_publish_at ∧ q.scheduled_publish_at ≤ now + w := by
    intro q hq
    have hcond := (List.mem_filter.1 hq).2
    simp only [Bool.and_eq_true, beq_iff_eq, decide_eq_true_eq] at hcond
    exact ⟨hcond.1.2, hcond.2⟩
  have hq : r ∉ get_videos_to_publish db now w := by
    intro hin
    have hcond := (List.mem_filter.1 hin).2
    simp only [Bool.and_eq_true, beq_iff_eq, decide_eq_true_eq] at hcond
    omega
  have hnp : r ∉ publishedRecords db now w publish_ok := by
    intro hp
    exact hq (List.mem_of_mem_filter hp)
  exact ⟨hwindow, hq, hnp, publishStep_of_not_published hids hr hnp⟩

/-- Concrete publish-scan input for the C9 witness: an eligible upload
scheduled 100 minutes before the window opens. -/
def overdueUpload : UploadRecord :=
  { id := "u2", youtube_video_id := some "yt2", upload_status := "completed"
    privacy_status := "private", metadata_status := "ready"
    manual_review_required := false, scheduled_publish_at := 870 }

theorem overdue_upload_never_published_witness :
    overdueUpload ∉ get_videos_to_publish [overdueUpload] 1000 30 ∧
    overdueUpload ∉ publishedRecords [overdueUpload] 1000 30 (fun _ => true) ∧
    publishStep [overdueUpload] 1000 30 (fun _ => true) overdueUpload = overdueUpload :=
  (overdue_upload_never_published [overdueUpload] 1000 30 (fun _ => true)
    (by decide) overdueUpload (by decide) (by decide)).2

/-! ### Local time arithmetic

A local timestamp is a number of minutes since an epoch midnight; the
calendar date is the day index, the wall-clock hour and minute are the
remainders. -/

/-- Calendar date (day index) of a local timestamp in minutes. -/
def dateOf (t : Nat) : Nat := t / 1440

/-- Wall-clock hour (0..23) of a local timestamp in minutes. -/
def hourOf (t : Nat) : Nat := t % 1440 / 60

/-- Wall-clock minute (0..59) of a local timestamp in minutes. -/
def minuteOf (t : Nat) : Nat := t % 60

/-! ### VOD slot computation (`scheduling_optimizer.get_optimal_vod_time`) -/

/-- `SchedulingOptimizer.get_optimal_vod_time`: target 03:00 local on
the day after the stream ended; when the stream ended at 23:00 local or
later, push the target one additional day. -/
def get_optimal_vod_time (stream_ended_at : Nat) : Nat :=
  let next_day := dateOf stream_ended_at + 1
  let optimal_time := next_day * 1440 + 3 * 60
  if hourOf stream_ended_at ≥ 23 then optimal_time + 1440 else optimal_time

end ContentAutomation

namespace ContentAutomation

/-- **C3.** The VOD slot is always 03:00 local, on the day after the
stream-end date — or two days after when the stream ended at 23:00
local or later. In particular a stream ending 22:00 on day 0 yields
03:00 on day 1, and one ending 23:30 on day 0 yields 03:00 on day 2. -/
theorem get_optimal_vod_time_spec (t : Nat) :
    dateOf (get_optimal_vod_time t) =
      dateOf t + (if hourOf t ≥ 23 then 2 else 1) ∧
    hourOf (get_optimal_vod_time t) = 3 ∧
    minuteOf (get_optimal_vod_time t) = 0 ∧
    get_optimal_vod_time (22 * 60) = 1 * 1440 + 3 * 60 ∧
    get_optimal_vod_time (23 * 60 + 30) = 2 * 1440 + 3 * 60 := by
  refine ⟨?_, ?_, ?_, by decide, by decide⟩ <;>
  · rw [get_optimal_vod_time]
    simp only [dateOf, hourOf, minuteOf]
    split <;> omega

/-! ### Game metadata resolution (`game_metadata_handler.py`) -/

/-- A cached or freshly resolved metadata record (`game_metadata`
table row / the dictionaries built by the fetch functions). -/
structure GameMetadata where
  game_name : String
  source : String
  description : String
  tags : List String
  twitch_game_id : Option String
  igdb_id : Option String
  rawg_id : Option String
  deriving Repr, DecidableEq

/-- A candidate returned by an IGDB or RAWG search: `name`, numeric id,
the description field (`summary` / `description_raw`), genre names and
tag names. -/
structure ProviderGame where
  name : String
  pid : Nat
  summary : String
  genres : List String
  tag_names : List String
  deriving Repr, DecidableEq

/-- Python `str.lower()`: lowercase every character. -/
def pyLower (s : String) : String := String.mk (s.data.map Char.toLower)

/-- Python `str.strip()`: drop leading and trailing whitespace. -/
def pyStrip (s : String) : String :=
  String.mk (((s.data.dropWhile Char.isWhitespace).reverse.dropWhile
    Char.isWhitespace).reverse)

/-- The normalisation both matchers apply before comparing:
`.lower().strip()`. -/
def lowerStrip (s : String) : String := pyStrip (pyLower s)

/-- `GameMetadataHandler.fetch_from_igdb` given the search results the
IGDB client returned: scan for a candidate whose lowercased, stripped
name equals the lowercased, stripped query and build metadata from it
(keeping the query as the canonical `game_name`); with no exact match
the function returns `None` — call sites use the default
`require_exact_match=True`, and even with the flag off the search loop
only ever selects exact matches. -/
def fetch_from_igdb (game_name : String) (results : List ProviderGame) :
    Option GameMetadata :=
  if results.isEmpty then none
  else
    match results.find? (fun r => lowerStrip r.name == lowerStrip game_name) with
    | some game =>
        some { game_name := game_name, source := "igdb"
               description := game.summary
               tags := game.genres.take 3
               twitch_game_id := none
               igdb_id := some (toString game.pid), rawg_id := none }
    | none => none

/-- The tag list `fetch_from_rawg` builds: up to three genre names,
topped up from the candidate's tag names when fewer than three. -/
def rawgTags (game : ProviderGame) : List String :=
  let tags := game.genres.take 3
  if game.tag_names.isEmpty then tags
  else if tags.length < 3 then tags ++ game.tag_names.take (3 - tags.length)
  else tags

/-- `GameMetadataHandler.fetch_from_rawg` given the parsed search
results: exact case-insensitive stripped name match only, returning
`None` rather than guessing when no candidate matches. -/
def fetch_from_rawg (game_name : String) (results : List ProviderGame) :
    Option GameMetadata :=
  if results.isEmpty then none
  else
    match results.find? (fun r => lowerStrip r.name == lowerStrip game_name) with
    | some game =>
        some { game_name := game_name, source := "rawg"
               description := game.summary
               tags := rawgTags game
               twitch_game_id := none
               igdb_id := none, rawg_id := some (toString game.pid) }
    | none => none

end ContentAutomation

namespace ContentAutomation

/-- **C4.** Both secondary resolvers accept a candidate only under exact
case-insensitive whitespace-trimmed full-string equality with the
query: whenever either returns a result, some candidate's normalised
name equals the normalised query and the returned description is that
candidate's; and when no candidate matches exactly, both return
nothing rather than a similar-named candidate. -/
theorem secondary_sources_exact_match_only (game_name : String)
    (results : List ProviderGame) :
    (∀ m, fetch_from_igdb game_name results = some m →
      ∃ g ∈ results, lowerStrip g.name = lowerStrip game_name ∧
        m.description = g.summary ∧ m.game_name = game_name) ∧
    (∀ m, fetch_from_rawg game_name results = some m →
      ∃ g ∈ results, lowerStrip g.name = lowerStrip game_name ∧
        m.description = g.summary ∧ m.game_name = game_name) ∧
    ((∀ g ∈ results, lowerStrip g.name ≠ lowerStrip game_name) →
      fetch_from_igdb game_name results = none ∧
      fetch_from_rawg game_name results = none) := by
  have hfind : ∀ g, List.find? (fun r => lowerStrip r.name == lowerStrip game_name)
      results = some g →
      g ∈ results ∧ lowerStrip g.name = lowerStrip game_name := by
    intro g hg
    exact ⟨List.mem_of_find?_eq_some hg, by
      have := List.find?_some hg
      simpa using this⟩
  refine ⟨?_, ?_, ?_⟩
  · intro m hm
    rw [fetch_from_igdb] at hm
    split at hm
    · cases hm
    · rcases hg : List.find? (fun r => lowerStrip r.name == lowerStrip game_name)
        results with _ | g
      · rw [hg] at hm; cases hm
      · rw [hg] at hm
        rcases hfind g hg with ⟨hmem, hname⟩
        cases hm
        exact ⟨g, hmem, hname, rfl, rfl⟩
  · intro m hm
    rw [fetch_from_rawg] at hm
    split at hm
    · cases hm
    · rcases hg : List.find? (fun r => lowerStrip r.name == lowerStrip game_name)
        results with _ | g
      · rw [hg] at hm; cases hm
      · rw [hg] at hm
        rcases hfind g hg with ⟨hmem, hname⟩
        cases hm
        exact ⟨g, hmem, hname, rfl, rfl⟩
  · intro hnone
    have hfn : List.find? (fun r => lowerStrip r.name == lowerStrip game_name)
        results = none := by
      rw [List.find?_eq_none]
      intro g hg
      simpa using hnone g hg
    constructor
    · rw [fetch_from_igdb]
      split
      · rfl
      · rw [hfn]
    · rw [fetch_from_rawg]
      split
      · rfl
      · rw [hfn]

/-- The two RAWG/IGDB candidates of the C4 witness scenario. -/
def halfLife2Candidate : ProviderGame :=
  { name := "Half-Life 2", pid := 2, summary := "sequel", genres := ["Shooter"]
    tag_names := [] }

/-- The exact-name candidate of the C4 witness scenario. -/
def halfLifeCandidate : ProviderGame :=
  { name := "Half-Life", pid := 1, summary := "original", genres := ["Shooter"]
    tag_names := [] }

theorem secondary_sources_exact_match_only_witness :
    ∃ g ∈ [halfLife2Candidate, halfLifeCandidate],
      lowerStrip g.name = lowerStrip "Half-Life" ∧
      ("original" : String) = g.summary ∧ ("Half-Life" : String) = "Half-Life" :=
  (secondary_sources_exact_match_only "Half-Life"
      [halfLife2Candidate, halfLifeCandidate]).1
    { game_name := "Half-Life", source := "igdb", description := "original"
      tags := ["Shooter"], twitch_game_id := none, igdb_id := some "1"
      rawg_id := none }
    (by decide)

/-! ### Metadata cache and fallback cascade
(`GameMetadataHandler.fetch_game_metadata`) -/

/-- `SupabaseClient.get_game_metadata`: select from the `game_metadata`
table filtering on the `game_name` column; first row if any. -/
def get_game_metadata (cache : List GameMetadata) (game_name : String) :
    Option GameMetadata :=
  cache.find? (fun g => g.game_name == game_name)

/-- `SupabaseClient.create_game_metadata`: upsert with
`on_conflict=game_name` — replace the row with the same name when one
exists, insert a new row otherwise. -/
def create_game_metadata (cache : List GameMetadata) (game_data : GameMetadata) :
    List GameMetadata :=
  if cache.any (fun g => g.game_name == game_data.game_name) then
    cache.map (fun g => if g.game_name == game_data.game_name then game_data else g)
  else cache ++ [game_data]

/-- The external metadata sources available to the resolver, as oracles:
whether a Twitch handler was injected, the result of
`fetch_from_twitch` per name, and the search listings the IGDB and
RAWG clients return per query. -/
structure Providers where
  hasTwitchHandler : Bool
  twitch : String → Option GameMetadata
  igdb : String → List ProviderGame
  rawg : String → List ProviderGame

/-- The outcome of one `fetch_game_metadata` call: the returned
metadata and status string, the `game_metadata` table afterwards, and
how many outbound provider calls were made. -/
structure FetchResult where
  metadata : Option GameMetadata
  status : String
  cache : List GameMetadata
  provider_calls : Nat
  deriving Repr, DecidableEq

/-- The merge of Twitch and IGDB data inside `fetch_game_metadata`:
keep Twitch's canonical name, add IGDB description/tags when IGDB gave
an exact match, otherwise use the Twitch data alone. -/
def mergeTwitchIgdb (twitch_metadata : GameMetadata)
    (igdb_metadata : Option GameMetadata) : GameMetadata :=
  match igdb_metadata with
  | some im =>
      { game_name := twitch_metadata.game_name, source := "twitch+igdb"
        description := im.description, tags := im.tags
        twitch_game_id := twitch_metadata.twitch_game_id
        igdb_id := im.igdb_id, rawg_id := none }
  | none => twitch_metadata

/-- `GameMetadataHandler.fetch_game_metadata`: normalise the name with
`.strip()`, return the cached row on a cache hit with zero provider
calls, otherwise resolve through Twitch (merged with IGDB), then IGDB,
then RAWG, upserting any successful result into the cache. -/
def fetch_game_metadata (P : Providers) (cache : List GameMetadata)
    (game_name0 : String) : FetchResult :=
  match get_game_metadata cache (pyStrip game_name0) with
  | some cached => ⟨some cached, "cached", cache, 0⟩
  | none =>
    match (if P.hasTwitchHandler then P.twitch (pyStrip game_name0) else none) with
    | some twitch_metadata =>
        let final_metadata := mergeTwitchIgdb twitch_metadata
          (fetch_from_igdb twitch_metadata.game_name (P.igdb twitch_metadata.game_name))
        ⟨some final_metadata, "success", create_game_metadata cache final_metadata, 2⟩
    | none =>
        match fetch_from_igdb (pyStrip game_name0) (P.igdb (pyStrip game_name0)) with
        | some metadata =>
            ⟨some metadata, "success", create_game_metadata cache metadata,
              (if P.hasTwitchHandler then 1 else 0) + 1⟩
        | none =>
            match fetch_from_rawg (pyStrip game_name0) (P.rawg (pyStrip game_name0)) with
            | some metadata =>
                ⟨some metadata, "success", create_game_metadata cache metadata,
                  (if P.hasTwitchHandler then 1 else 0) + 2⟩
            | none =>
                ⟨none, "failed", cache, (if P.hasTwitchHandler then 1 else 0) + 2⟩

theorem fetch_from_igdb_game_name {game_name : String} {results : List ProviderGame}
    {m : GameMetadata} (h : fetch_from_igdb game_name results = some m) :
    m.game_name = game_name := by
  rw [fetch_from_igdb] at h
  split at h
  · cases h
  · rcases hg : List.find? (fun r => lowerStrip r.name == lowerStrip game_name)
      results with _ | g
    · rw [hg] at h; cases h
    · rw [hg] at h; cases h; rfl

theorem fetch_from_rawg_game_name {game_name : String} {results : List ProviderGame}
    {m : GameMetadata} (h : fetch_from_rawg game_name results = some m) :
    m.game_name = game_name := by
  rw [fetch_from_rawg] at h
  split at h
  · cases h
  · rcases hg : List.find? (fun r => lowerStrip r.name == lowerStrip game_name)
      results with _ | g
    · rw [hg] at h; cases h
    · rw [hg] at h; cases h; rfl

/-- After an upsert, looking the key up finds exactly the upserted row. -/
theorem get_game_metadata_create (cache : List GameMetadata) (m : GameMetadata) :
    get_game_metadata (create_game_metadata cache m) m.game_name = some m := by
  rw [create_game_metadata]
  split
  · rename_i hany
    induction cache with
    | nil => cases hany
    | cons g gs ih =>
        rw [List.map_cons]
        by_cases hg : g.game_name == m.game_name
        · rw [if_pos hg]
          rw [get_game_metadata, List.find?_cons_of_pos]
          simp
        · rw [if_neg hg]
          rw [get_game_metadata, List.find?_cons_of_neg _ (by simpa using hg)]
          exact ih (by simpa [List.any_cons, hg] using hany)
  · rename_i hany
    induction cache with
    | nil =>
        rw [get_game_metadata]
        simp
    | cons g gs ih =>
        have hg : ¬ (g.game_name == m.game_name) = true := by
          intro hgt
          exact hany (by simp [List.any_cons, hgt])
        rw [List.cons_append, get_game_metadata,
          List.find?_cons_of_neg _ (by simpa using hg)]
        exact ih (by
          intro hgs
          rcases List.any_eq_true.1 hgs with ⟨x, hx, hxn⟩
          exact hany (List.any_eq_true.2 ⟨x, List.mem_cons_of_mem _ hx, hxn⟩))

/-- An upsert never duplicates cache keys. -/
theorem create_game_metadata_keys_nodup (cache : List GameMetadata)
    (m : GameMetadata) (h : (cache.map (fun g => g.game_name)).Nodup) :
    ((create_game_metadata cache m).map (fun g => g.game_name)).Nodup := by
  rw [create_game_metadata]
  split
  · rw [List.map_map]
    have hkeys : (cache.map ((fun g => g.game_name) ∘
        (fun g => if g.game_name == m.game_name then m else g))) =
        cache.map (fun g => g.game_name) := by
      refine List.map_congr_left (fun g _ => ?_)
      by_cases hg : (g.game_name == m.game_name) = true
      · simp only [Function.comp_apply, if_pos hg]
        exact (beq_iff_eq.1 hg).symm
      · simp only [Function.comp_apply, if_neg hg]
    rw [hkeys]
    exact h
  · rename_i hany
    rw [List.map_append]
    simp only [List.map_cons, List.map_nil]
    rw [List.nodup_append]
    refine ⟨h, List.nodup_singleton _, ?_⟩
    intro k hk hk1
    simp only [List.mem_singleton] at hk1
    subst hk1
    rcases List.mem_map.1 hk with ⟨g, hg, hgk⟩
    exact hany (List.any_eq_true.2 ⟨g, hg, by simpa using hgk⟩)

theorem mergeTwitchIgdb_game_name (twitch_metadata : GameMetadata)
    (igdb_metadata : Option GameMetadata) :
    (mergeTwitchIgdb twitch_metadata igdb_metadata).game_name =
      twitch_metadata.game_name := by
  rcases igdb_metadata with _ | im <;> rfl

/-- The four possible outcomes of one `fetch_game_metadata` call: a
cache hit, a successful resolution upserted into the cache, or total
failure leaving the cache untouched. -/
theorem fetch_result_cases (P : Providers) (cache : List GameMetadata)
    (name : String) :
    (∃ m, get_game_metadata cache (pyStrip name) = some m ∧
      fetch_game_metadata P cache name = ⟨some m, "cached", cache, 0⟩) ∨
    (∃ m n, fetch_game_metadata P cache name =
        ⟨some m, "success", create_game_metadata cache m, n⟩ ∧
      (m.game_name = pyStrip name ∨
        ∃ tm, P.twitch (pyStrip name) = some tm ∧ m.game_name = tm.game_name)) ∨
    fetch_game_metadata P cache name =
      ⟨none, "failed", cache, (if P.hasTwitchHandler then 1 else 0) + 2⟩ := by
  rcases hc : get_game_metadata cache (pyStrip name) with _ | c
  · rcases ht : (if P.hasTwitchHandler then P.twitch (pyStrip name) else none)
      with _ | tm
    · rcases hi : fetch_from_igdb (pyStrip name) (P.igdb (pyStrip name)) with _ | m
      · rcases hr : fetch_from_rawg (pyStrip name) (P.rawg (pyStrip name)) with _ | m
        · right; right
          rw [fetch_game_metadata, hc, ht, hi, hr]
        · right; left
          refine ⟨m, (if P.hasTwitchHandler then 1 else 0) + 2, ?_,
            Or.inl (fetch_from_rawg_game_name hr)⟩
          rw [fetch_game_metadata, hc, ht, hi, hr]
      · right; left
        refine ⟨m, (if P.hasTwitchHandler then 1 else 0) + 1, ?_,
          Or.inl (fetch_from_igdb_game_name hi)⟩
        rw [fetch_game_metadata, hc, ht, hi]
    · right; left
      have htw : P.twitch (pyStrip name) = some tm := by
        by_cases hh : P.hasTwitchHandler
        · rw [if_pos hh] at ht; exact ht
        · rw [if_neg hh] at ht; cases ht
      refine ⟨mergeTwitchIgdb tm
          (fetch_from_igdb tm.game_name (P.igdb tm.game_name)), 2, ?_,
        Or.inr ⟨tm, htw, mergeTwitchIgdb_game_name tm _⟩⟩
      rw [fetch_game_metadata, hc, ht]
  · left
    refine ⟨c, rfl, ?_⟩
    rw [fetch_game_metadata, hc]

end ContentAutomation

namespace ContentAutomation

/-- **C5.** Cache behaviour of the resolver: (a) on a cache hit
`fetch_game_metadata` returns the cached row with status `cached`, the
cache unchanged, and zero outbound provider calls; (b) when a first
resolution of a name succeeds, resolving the same name again hits the
cache — status `cached`, zero provider calls, same metadata — so the
two resolutions cost exactly one outbound resolution episode; (c) the
upsert keyed by name never produces two cache rows for one name. The
hypothesis states that Twitch's by-name game lookup returns the queried
canonical name, which is how the Helix `games` endpoint behaves. -/
theorem metadata_cache_short_circuit (P : Providers) (cache : List GameMetadata)
    (name : String)
    (htw : ∀ tm, P.twitch (pyStrip name) = some tm → tm.game_name = pyStrip name) :
    (∀ m, get_game_metadata cache (pyStrip name) = some m →
      fetch_game_metadata P cache name = ⟨some m, "cached", cache, 0⟩) ∧
    ((fetch_game_metadata P cache name).status = "success" →
      (fetch_game_metadata P (fetch_game_metadata P cache name).cache name).status =
        "cached" ∧
      (fetch_game_metadata P
        (fetch_game_metadata P cache name).cache name).provider_calls = 0 ∧
      (fetch_game_metadata P (fetch_game_metadata P cache name).cache name).metadata =
        (fetch_game_metadata P cache name).metadata) ∧
    ((cache.map (fun g => g.game_name)).Nodup →
      ((fetch_game_metadata P cache name).cache.map (fun g => g.game_name)).Nodup) := by
  refine ⟨?_, ?_, ?_⟩
  · intro m hm
    rw [fetch_game_metadata, hm]
  · intro hs
    have hne1 : ("cached" : String) ≠ "success" := by decide
    have hne2 : ("failed" : String) ≠ "success" := by decide
    rcases fetch_result_cases P cache name with
      ⟨m, hm, heq⟩ | ⟨m, n, heq, hname⟩ | heq
    · rw [heq] at hs
      exact absurd hs hne1
    · have hkey : m.game_name = pyStrip name := by
        rcases hname with h | ⟨tm, htm, hmn⟩
        · exact h
        · rw [hmn]
          exact htw tm htm
      have hc2 : get_game_metadata (create_game_metadata cache m) (pyStrip name) =
          some m := by
        rw [← hkey]
        exact get_game_metadata_create cache m
      have h2 : fetch_game_metadata P (create_game_metadata cache m) name =
          ⟨some m, "cached", create_game_metadata cache m, 0⟩ := by
        rw [fetch_game_metadata, hc2]
      have hcache : (fetch_game_metadata P cache name).cache =
          create_game_metadata cache m := by
        rw [heq]
      have hmeta : (fetch_game_metadata P cache name).metadata = some m := by
        rw [heq]
      rw [hcache, h2, hmeta]
      exact ⟨rfl, rfl, rfl⟩
    · rw [heq] at hs
      exact absurd hs hne2
  · intro hnd
    rcases fetch_result_cases P cache name with
      ⟨m, hm, heq⟩ | ⟨m, n, heq, -⟩ | heq
    · rw [heq]
      exact hnd
    · rw [heq]
      exact create_game_metadata_keys_nodup cache m hnd
    · rw [heq]
      exact hnd

/-- The IGDB candidate of the C5 witness scenario. -/
def portalCandidate : ProviderGame :=
  { name := "Portal", pid := 7, summary := "puzzle platformer"
    genres := ["Puzzle"], tag_names := [] }

/-- The C5 witness providers: no Twitch handler, IGDB returning an
exact match for the queried name. -/
def offlineProviders : Providers :=
  { hasTwitchHandler := false
    twitch := fun _ => none
    igdb := fun _ => [portalCandidate]
    rawg := fun _ => [] }

theorem metadata_cache_short_circuit_witness :
    (fetch_game_metadata offlineProviders
      (fetch_game_metadata offlineProviders [] "Portal").cache "Portal").status =
        "cached" ∧
    (fetch_game_metadata offlineProviders
      (fetch_game_metadata offlineProviders [] "Portal").cache "Portal").provider_calls =
        0 ∧
    (fetch_game_metadata offlineProviders
      (fetch_game_metadata offlineProviders [] "Portal").cache "Portal").metadata =
      (fetch_game_metadata offlineProviders [] "Portal").metadata :=
  (metadata_cache_short_circuit offlineProviders [] "Portal"
      (fun _ h => Option.noConfusion h)).2.1 (by rfl)

/-! ### VOD download (`downloader.VODDownloader.download_vod`) -/

/-- The observable outcome of one `download_vod` call: the final
`vod_downloads` status written, the error message recorded on failure,
whether the local file was deleted, the DO Spaces URL recorded on
success, and the boolean the function returns. -/
structure DownloadOutcome where
  download_status : String
  error_message : Option String
  local_file_deleted : Bool
  spaces_url : Option String
  returned : Bool
  deriving Repr, DecidableEq

/-- `VODDownloader.download_vod` after marking the task started:
`download_success` is whether streamlink or the yt-dlp fallback
reported success, `file_exists` whether the output path exists,
`file_size_mb` the measured size (`get_file_size_mb`), and
`spaces_upload` the oracle for `upload_to_spaces`. A sub-10-MB file is
rejected as corrupt even when the sub-process reported success. -/
def download_vod (download_success : Bool) (file_exists : Bool)
    (file_size_mb : ℚ) (spaces_upload : Option String) : DownloadOutcome :=
  if download_success && file_exists then
    if file_size_mb < 10 then
      { download_status := "failed"
        error_message := some ("File too small: " ++ toString file_size_mb ++ " MB")
        local_file_deleted := true, spaces_url := none, returned := false }
    else
      match spaces_upload with
      | none =>
          { download_status := "failed"
            error_message := some "DO Spaces upload failed"
            local_file_deleted := true, spaces_url := none, returned := false }
      | some url =>
          { download_status := "completed", error_message := none
            local_file_deleted := true, spaces_url := some url, returned := true }
  else
    { download_status := "failed"
      error_message := some "Download failed with both streamlink and yt-dlp"
      local_file_deleted := false, spaces_url := none, returned := false }

end ContentAutomation

namespace ContentAutomation

/-- **C6.** When the downloader sub-process reports success but the
resulting file is smaller than the 10 MB plausibility threshold, the
task is recorded as failed with an error message, the partial local
file is deleted, and `download_vod` returns failure — it is never
recorded as completed. -/
theorem small_download_rejected (file_size_mb : ℚ) (spaces_upload : Option String)
    (hsmall : file_size_mb < 10) :
    (download_vod true true file_size_mb spaces_upload).download_status = "failed" ∧
    (download_vod true true file_size_mb spaces_upload).error_message =
      some ("File too small: " ++ toString file_size_mb ++ " MB") ∧
    (download_vod true true file_size_mb spaces_upload).local_file_deleted = true ∧
    (download_vod true true file_size_mb spaces_upload).returned = false ∧
    (download_vod true true file_size_mb spaces_upload).download_status ≠
      "completed" := by
  unfold download_vod
  simp only [Bool.and_self, if_true, if_pos hsmall]
  exact ⟨trivial, trivial, trivial, trivial, by decide⟩

theorem small_download_rejected_witness :
    (5 : ℚ) < 10 ∧
    (download_vod true true 5 (some "https://spaces/vod.mp4")).download_status =
      "failed" ∧
    (download_vod true true 5 (some "https://spaces/vod.mp4")).local_file_deleted =
      true ∧
    (download_vod true true 5 (some "https://spaces/vod.mp4")).returned = false :=
  ⟨by norm_num,
    (small_download_rejected 5 (some "https://spaces/vod.mp4") (by norm_num)).1,
    (small_download_rejected 5 (some "https://spaces/vod.mp4") (by norm_num)).2.2.1,
    (small_download_rejected 5 (some "https://spaces/vod.mp4") (by norm_num)).2.2.2.1⟩

/-! ### Upload-record creation (`youtube_handler.py`) -/

/-- `self.bluesky` in `YouTubeHandler`. -/
def bluesky_handle : String := "@sirkrisofgames.bsky.social"

/-- `self.twitch` in `YouTubeHandler`. -/
def twitch_channel : String := "twitch.tv/sir_kris"

/-- `self.facebook` in `YouTubeHandler`. -/
def facebook_page : String := "sirkrisofgames"

/-- The duration string both description builders compute:
`"Xh Ym"` when at least an hour, else `"Ym"`. -/
def durationStr (duration_seconds : Nat) : String :=
  let hours := duration_seconds / 3600
  let minutes := duration_seconds % 3600 / 60
  if hours > 0 then toString hours ++ "h " ++ toString minutes ++ "m"
  else toString minutes ++ "m"

/-- `YouTubeHandler.format_game_title`: keep alphanumerics and spaces,
then remove the spaces. -/
def format_game_title (game_name : String) : String :=
  String.mk (((game_name.data.filter (fun c => c.isAlphanum || c == ' ')).filter
    (fun c => c != ' ')))

/-- `YouTubeHandler.build_hashtags`. -/
def build_hashtags (game_name : String) (game_metadata : Option GameMetadata) :
    List String :=
  let hashtags := ["#" ++ format_game_title game_name]
  let hashtags := hashtags ++
    (match game_metadata with
     | some m =>
         if m.tags.isEmpty then []
         else (m.tags.take 3).map (fun t => "#" ++ format_game_title t)
     | none => [])
  if pyLower game_name == "warframe" then hashtags ++ ["#TennoCreate"] else hashtags

/-- `YouTubeHandler.build_tags_list`. -/
def build_tags_list (game_name : String) (game_metadata : Option GameMetadata) :
    List String :=
  let tags := [game_name]
  let tags := tags ++
    (match game_metadata with
     | some m => if m.tags.isEmpty then [] else m.tags.take 3
     | none => [])
  if pyLower game_name == "warframe" then tags ++ ["TennoCreate"] else tags

/-- `YouTubeHandler.build_description`, with the
`strftime("%B %d, %Y")` formatting of the stream date abstracted as the
oracle `fmtDate`. -/
def build_description (fmtDate : Nat → String) (stream_title game_name : String)
    (game_metadata : Option GameMetadata) (stream_date duration_seconds : Nat) :
    String :=
  let description := stream_title ++ "\n\n"
  let description := description ++
    (match game_metadata with
     | some m =>
         if m.description.isEmpty then ""
         else
           (if m.description.length > 500 then m.description.take 497 ++ "..."
            else m.description) ++ "\n\n"
     | none => "")
  let description := description ++
    "🎮 Streamed live on Twitch: https://" ++ twitch_channel ++ "\n" ++
    "📅 Stream Date: " ++ fmtDate stream_date ++ "\n" ++
    "⏱️ Duration: " ++ durationStr duration_seconds ++ "\n\n" ++
    "Follow Sir Kris:\n" ++
    "🦋 BlueSky: " ++ bluesky_handle ++ "\n" ++
    "📺 Twitch: " ++ twitch_channel ++ "\n" ++
    "👥 Facebook: facebook.com/" ++ facebook_page ++ "\n\n"
  description ++ String.intercalate " " (build_hashtags game_name game_metadata)

/-- `YouTubeHandler.build_minimal_description`: the substitute used
when game metadata could not be resolved. -/
def build_minimal_description (fmtDate : Nat → String) (stream_title : String)
    (stream_date duration_seconds : Nat) : String :=
  stream_title ++ "\n\n" ++
  "🎮 Streamed live on Twitch: https://" ++ twitch_channel ++ "\n" ++
  "📅 Stream Date: " ++ fmtDate stream_date ++ "\n" ++
  "⏱️ Duration: " ++ durationStr duration_seconds ++ "\n\n" ++
  "Follow Sir Kris:\n" ++
  "🦋 BlueSky: " ++ bluesky_handle ++ "\n" ++
  "📺 Twitch: " ++ twitch_channel ++ "\n" ++
  "👥 Facebook: facebook.com/" ++ facebook_page ++ "\n\n" ++
  "⚠️ Video uploaded with minimal metadata - please update manually"

/-- `YouTubeHandler.calculate_publish_time`: 18:00 on the upload date,
or 18:00 the next day when the upload happens at or after 18:00. -/
def calculate_publish_time (upload_time : Nat) : Nat :=
  let publish_time := dateOf upload_time * 1440 + 18 * 60
  if hourOf upload_time ≥ 18 then publish_time + 1440 else publish_time

/-- A `streams` row as read by the upload-record creation scan. -/
structure StreamRow where
  id : String
  twitch_vod_id : String
  title : String
  game_name : Option String
  started_at : Nat
  duration_seconds : Nat
  deriving Repr, DecidableEq

/-- A `vod_downloads` row as read by the scan. -/
structure DownloadRow where
  id : String
  deriving Repr, DecidableEq

/-- The `youtube_uploads` row the scan inserts. -/
structure YTUploadData where
  stream_id : String
  vod_download_id : String
  video_title : String
  video_description : String
  video_tags : List String
  privacy_status : String
  upload_status : String
  metadata_status : String
  manual_review_required : Bool
  review_reason : Option String
  scheduled_publish_at : Nat
  deriving Repr, DecidableEq

/-- The game-name defaulting at the top of the loop: missing or blank
stream game names become `"Games + Demos"`. -/
def effective_game_name (s : StreamRow) : String :=
  match s.game_name with
  | none => "Games + Demos"
  | some g => if pyStrip g == "" then "Games + Demos" else g

/-- The body of the loop in `YouTubeHandler.process_completed_downloads`
for one completed download: attempt metadata resolution (the oracle
`fetchMeta`), then build the upload record — full description and
`metadata_status = ready` on success, minimal description,
`metadata_status = failed` and `manual_review_required` on failure.
Returns the record and whether a manual-review alert email is sent. -/
def buildUploadData (fetchMeta : String → Option GameMetadata) (now : Nat)
    (fmtDate : Nat → String) (default_privacy : String)
    (dl : DownloadRow) (s : StreamRow) : YTUploadData × Bool :=
  let game_name := effective_game_name s
  match fetchMeta game_name with
  | some gm =>
      ({ stream_id := s.id, vod_download_id := dl.id, video_title := s.title
         video_description := build_description fmtDate s.title game_name (some gm)
           s.started_at s.duration_seconds
         video_tags := build_tags_list game_name (some gm)
         privacy_status := default_privacy, upload_status := "queued"
         metadata_status := "ready", manual_review_required := false
         review_reason := none
         scheduled_publish_at := calculate_publish_time now }, false)
  | none =>
      ({ stream_id := s.id, vod_download_id := dl.id, video_title := s.title
         video_description := build_minimal_description fmtDate s.title
           s.started_at s.duration_seconds
         video_tags := build_tags_list game_name none
         privacy_status := default_privacy, upload_status := "queued"
         metadata_status := "failed", manual_review_required := true
         review_reason := some ("Game metadata not found for: " ++ game_name)
         scheduled_publish_at := calculate_publish_time now }, true)

/-- The observable outcome of one upload-record creation scan: the
records inserted and the stream titles for which a metadata-failure
alert was dispatched. -/
structure UploadScanOutput where
  records : List YTUploadData
  emails : List String
  deriving Repr, DecidableEq

/-- `YouTubeHandler.process_completed_downloads`: walk the completed
downloads joined with their streams, skip those that already have an
upload record, create an upload record for the rest and send a
manual-review alert when metadata resolution failed. -/
def process_completed_downloads (fetchMeta : String → Option GameMetadata)
    (now : Nat) (fmtDate : Nat → String) (default_privacy : String)
    (hasUpload : String → Bool) :
    List (DownloadRow × StreamRow) → UploadScanOutput
  | [] => ⟨[], []⟩
  | (dl, s) :: rest =>
      let out := process_completed_downloads fetchMeta now fmtDate default_privacy
        hasUpload rest
      if hasUpload dl.id then out
      else
        let p := buildUploadData fetchMeta now fmtDate default_privacy dl s
        ⟨p.1 :: out.records, (if p.2 then [s.title] else []) ++ out.emails⟩

theorem buildUploadData_of_meta_none {fetchMeta : String → Option GameMetadata}
    {now : Nat} {fmtDate : Nat → String} {default_privacy : String}
    {dl : DownloadRow} {s : StreamRow}
    (h : fetchMeta (effective_game_name s) = none) :
    buildUploadData fetchMeta now fmtDate default_privacy dl s =
      ({ stream_id := s.id, vod_download_id := dl.id, video_title := s.title
         video_description := build_minimal_description fmtDate s.title
           s.started_at s.duration_seconds
         video_tags := build_tags_list (effective_game_name s) none
         privacy_status := default_privacy, upload_status := "queued"
         metadata_status := "failed", manual_review_required := true
         review_reason := some ("Game metadata not found for: " ++
           effective_game_name s)
         scheduled_publish_at := calculate_publish_time now }, true) := by
  unfold buildUploadData
  simp only [h]

theorem buildUploadData_of_meta_some {fetchMeta : String → Option GameMetadata}
    {now : Nat} {fmtDate : Nat → String} {default_privacy : String}
    {dl : DownloadRow} {s : StreamRow} {gm : GameMetadata}
    (h : fetchMeta (effective_game_name s) = some gm) :
    buildUploadData fetchMeta now fmtDate default_privacy dl s =
      ({ stream_id := s.id, vod_download_id := dl.id, video_title := s.title
         video_description := build_description fmtDate s.title
           (effective_game_name s) (some gm) s.started_at s.duration_seconds
         video_tags := build_tags_list (effective_game_name s) (some gm)
         privacy_status := default_privacy, upload_status := "queued"
         metadata_status := "ready", manual_review_required := false
         review_reason := none
         scheduled_publish_at := calculate_publish_time now }, false) := by
  unfold buildUploadData
  simp only [h]

theorem buildUploadData_review_failed (fetchMeta : String → Option GameMetadata)
    (now : Nat) (fmtDate : Nat → String) (default_privacy : String)
    (dl : DownloadRow) (s : StreamRow) :
    (buildUploadData fetchMeta now fmtDate default_privacy dl s).1.manual_review_required =
      true →
    (buildUploadData fetchMeta now fmtDate default_privacy dl s).1.metadata_status =
      "failed" := by
  rcases hm : fetchMeta (effective_game_name s) with _ | gm
  · rw [buildUploadData_of_meta_none hm]
    intro
    rfl
  · rw [buildUploadData_of_meta_some hm]
    intro hfalse
    cases hfalse

theorem buildUploadData_scheduled (fetchMeta : String → Option GameMetadata)
    (now : Nat) (fmtDate : Nat → String) (default_privacy : String)
    (dl : DownloadRow) (s : StreamRow) :
    (buildUploadData fetchMeta now fmtDate default_privacy dl s).1.scheduled_publish_at =
      calculate_publish_time now := by
  rcases hm : fetchMeta (effective_game_name s) with _ | gm
  · rw [buildUploadData_of_meta_none hm]
  · rw [buildUploadData_of_meta_some hm]

theorem process_completed_downloads_cons (fetchMeta : String → Option GameMetadata)
    (now : Nat) (fmtDate : Nat → String) (default_privacy : String)
    (hasUpload : String → Bool) (dl0 : DownloadRow) (s0 : StreamRow)
    (rest : List (DownloadRow × StreamRow)) :
    process_completed_downloads fetchMeta now fmtDate default_privacy hasUpload
      ((dl0, s0) :: rest) =
    (if hasUpload dl0.id then
      process_completed_downloads fetchMeta now fmtDate default_privacy hasUpload rest
    else
      ⟨(buildUploadData fetchMeta now fmtDate default_privacy dl0 s0).1 ::
        (process_completed_downloads fetchMeta now fmtDate default_privacy hasUpload
          rest).records,
        (if (buildUploadData fetchMeta now fmtDate default_privacy dl0 s0).2 then
          [s0.title] else []) ++
        (process_completed_downloads fetchMeta now fmtDate default_privacy hasUpload
          rest).emails⟩) := rfl

theorem hourOf_calculate_publish_time (t : Nat) :
    hourOf (calculate_publish_time t) = 18 := by
  rw [calculate_publish_time]
  simp only [dateOf, hourOf]
  split <;> omega

theorem hourOf_get_optimal_vod_time (t : Nat) :
    hourOf (get_optimal_vod_time t) = 3 := by
  rw [get_optimal_vod_time]
  simp only [dateOf, hourOf]
  split <;> omega

end ContentAutomation

namespace ContentAutomation

/-- **C7.** A metadata-resolution failure never blocks upload-record
creation: for every completed download the scan reaches whose metadata
lookup fails, an UploadRecord is still created with
`metadata_status = failed`, `manual_review_required = true`, the
minimal substituted description, and an alert email for the operator;
conversely every record the scan creates with
`manual_review_required = true` has `metadata_status = failed`. -/
theorem metadata_failure_never_blocks (fetchMeta : String → Option GameMetadata)
    (now : Nat) (fmtDate : Nat → String) (default_privacy : String)
    (hasUpload : String → Bool) (items : List (DownloadRow × StreamRow)) :
    (∀ dl s, (dl, s) ∈ items → hasUpload dl.id = false →
      fetchMeta (effective_game_name s) = none →
      ∃ row ∈ (process_completed_downloads fetchMeta now fmtDate default_privacy
          hasUpload items).records,
        row.vod_download_id = dl.id ∧ row.metadata_status = "failed" ∧
        row.manual_review_required = true ∧
        row.video_description = build_minimal_description fmtDate s.title
          s.started_at s.duration_seconds ∧
        s.title ∈ (process_completed_downloads fetchMeta now fmtDate default_privacy
          hasUpload items).emails) ∧
    (∀ row ∈ (process_completed_downloads fetchMeta now fmtDate default_privacy
        hasUpload items).records,
      row.manual_review_required = true → row.metadata_status = "failed") := by
  induction items with
  | nil =>
      refine ⟨?_, ?_⟩
      · intro dl s hmem
        cases hmem
      · intro row hrow
        cases hrow
  | cons hd rest ih =>
      obtain ⟨dl0, s0⟩ := hd
      rw [process_completed_downloads_cons]
      by_cases hup0 : hasUpload dl0.id = true
      · rw [if_pos hup0]
        refine ⟨?_, ih.2⟩
        intro dl s hmem hup hmeta
        rcases List.mem_cons.1 hmem with heq | htl
        · injection heq with h1 h2
          subst h1
          subst h2
          rw [hup] at hup0
          cases hup0
        · exact ih.1 dl s htl hup hmeta
      · rw [if_neg hup0]
        refine ⟨?_, ?_⟩
        · intro dl s hmem hup hmeta
          rcases List.mem_cons.1 hmem with heq | htl
          · injection heq with h1 h2
            subst h1
            subst h2
            rw [buildUploadData_of_meta_none hmeta]
            exact ⟨_, List.mem_cons_self _ _, rfl, rfl, rfl, rfl, by simp⟩
          · rcases ih.1 dl s htl hup hmeta with ⟨row, hrmem, hp1, hp2, hp3, hp4, hp5⟩
            exact ⟨row, List.mem_cons_of_mem _ hrmem, hp1, hp2, hp3, hp4,
              List.mem_append_right _ hp5⟩
        · intro row hrow hmr
          rcases List.mem_cons.1 hrow with heq | htl
          · subst heq
            exact buildUploadData_review_failed _ _ _ _ _ _ hmr
          · exact ih.2 row htl hmr

/-- A completed download and its stream for the C7 witness. -/
def sampleDownloadRow : DownloadRow := { id := "d1" }

/-- The stream row of the C7 witness. -/
def sampleStreamRow : StreamRow :=
  { id := "s1", twitch_vod_id := "123", title := "late night run"
    game_name := some "ObscureGame", started_at := 900, duration_seconds := 5400 }

theorem metadata_failure_never_blocks_witness :
    ∃ row ∈ (process_completed_downloads (fun _ => none) 1000
        (fun _ => "January 01, 2025") "private" (fun _ => false)
        [(sampleDownloadRow, sampleStreamRow)]).records,
      row.vod_download_id = "d1" ∧ row.metadata_status = "failed" ∧
      row.manual_review_required = true ∧
      row.video_description = build_minimal_description
        (fun _ => "January 01, 2025") "late night run" 900 5400 ∧
      "late night run" ∈ (process_completed_downloads (fun _ => none) 1000
        (fun _ => "January 01, 2025") "private" (fun _ => false)
        [(sampleDownloadRow, sampleStreamRow)]).emails :=
  (metadata_failure_never_blocks (fun _ => none) 1000
      (fun _ => "January 01, 2025") "private" (fun _ => false)
      [(sampleDownloadRow, sampleStreamRow)]).1
    sampleDownloadRow sampleStreamRow (List.mem_cons_self _ _) rfl rfl

/-- **C10.** Every UploadRecord the creation scan inserts gets
`scheduled_publish_at = calculate_publish_time now`: 18:00 on the scan
date when the scan runs before 18:00 local, 18:00 the next day
otherwise — never the scheduling optimizer's 03:00 VOD slot. -/
theorem upload_scan_publish_time (fetchMeta : String → Option GameMetadata)
    (now : Nat) (fmtDate : Nat → String) (default_privacy : String)
    (hasUpload : String → Bool) (items : List (DownloadRow × StreamRow)) :
    (∀ row ∈ (process_completed_downloads fetchMeta now fmtDate default_privacy
        hasUpload items).records,
      row.scheduled_publish_at = calculate_publish_time now) ∧
    (hourOf now < 18 → dateOf (calculate_publish_time now) = dateOf now) ∧
    (18 ≤ hourOf now → dateOf (calculate_publish_time now) = dateOf now + 1) ∧
    hourOf (calculate_publish_time now) = 18 ∧
    minuteOf (calculate_publish_time now) = 0 ∧
    (∀ u, calculate_publish_time now ≠ get_optimal_vod_time u) := by
  refine ⟨?_, ?_, ?_, hourOf_calculate_publish_time now, ?_, ?_⟩
  · induction items with
    | nil =>
        intro row hrow
        cases hrow
    | cons hd rest ih =>
        obtain ⟨dl0, s0⟩ := hd
        rw [process_completed_downloads_cons]
        by_cases hup0 : hasUpload dl0.id = true
        · rw [if_pos hup0]
          exact ih
        · rw [if_neg hup0]
          intro row hrow
          rcases List.mem_cons.1 hrow with heq | htl
          · subst heq
            exact buildUploadData_scheduled _ _ _ _ _ _
          · exact ih row htl
  · intro h
    rw [calculate_publish_time]
    simp only [dateOf, hourOf] at *
    split <;> omega
  · intro h
    rw [calculate_publish_time]
    simp only [dateOf, hourOf] at *
    split <;> omega
  · rw [calculate_publish_time]
    simp only [dateOf, hourOf, minuteOf]
    split <;> omega
  · intro u h
    have h18 := hourOf_calculate_publish_time now
    rw [h, hourOf_get_optimal_vod_time u] at h18
    omega

theorem upload_scan_publish_time_witness :
    dateOf (calculate_publish_time 1000) = dateOf 1000 ∧
    calculate_publish_time 1000 ≠ get_optimal_vod_time 500 :=
  ⟨(upload_scan_publish_time (fun _ => none) 1000 (fun _ => "") "private"
      (fun _ => false) []).2.1 (by decide),
   (upload_scan_publish_time (fun _ => none) 1000 (fun _ => "") "private"
      (fun _ => false) []).2.2.2.2.2 500⟩

end ContentAutomation
